import Mathlib

/-!
Verification of the monograf power-usage calculation service
(`monograf/views.py`, class `PowerUsageCalculatorView`).

The Python code is shallowly embedded: floats become `ℚ`, Python `datetime`
dates become a `Date` structure of year/month/day naturals, `dict.get`
lookups become `Option`, and code that raises exceptions returns
`Option`/`Except`.  Every definition below mirrors the corresponding
function of `views.py`; names follow the source.
-/

set_option autoImplicit false

namespace Monograf

/-! ### Intelligent settings (the optional `intelligentSettings` dict)

A field that is absent from the dict is `none`; `dict.get(key, default)`
becomes `Option.getD`.  A missing or empty `intelligentSettings` dict is
falsy in Python, so the caller passes `none` for it (see `daily_usage`). -/

structure ISettings where
  percentageOfTotal : Option ℚ
  dimmingPowerPercentage : Option ℚ
  dimmingTimePercentage : Option ℚ
  criticalInfrastructurePercentage : Option ℚ
deriving DecidableEq, Repr

/-! ### Power tiers (`views.py` lines 119–124) -/

/-- `standard_power = real_power * (1 - percentage_of_total)` (line 120). -/
def standard_power (real_power percentage_of_total : ℚ) : ℚ :=
  real_power * (1 - percentage_of_total)

/-- `critical_power = intelligent_power * critical_percentage` where
`intelligent_power = real_power * percentage_of_total` (lines 119, 123). -/
def critical_power (real_power percentage_of_total critical_percentage : ℚ) : ℚ :=
  (real_power * percentage_of_total) * critical_percentage

/-- `dimmable_power = intelligent_power - critical_power` (line 124). -/
def dimmable_power (real_power percentage_of_total critical_percentage : ℚ) : ℚ :=
  real_power * percentage_of_total -
    critical_power real_power percentage_of_total critical_percentage

/-- Per-day energy of `calculate_energy_usage` (lines 107–141): the base
calculation `real_power * night_hours`, replaced by the tiered formula when
`intelligent_settings` is truthy and `percentageOfTotal` is not `None`.
Mirrors the Python defaults: `dimmingPowerPercentage` defaults to `1`,
`dimmingTimePercentage` and `criticalInfrastructurePercentage` to `0`. -/
def daily_usage (real_power night_hours : ℚ) (intelligent_settings : Option ISettings) : ℚ :=
  match intelligent_settings with
  | none => real_power * night_hours
  | some s =>
    let dimming_power_percentage := s.dimmingPowerPercentage.getD 1
    let dimming_time_percentage := s.dimmingTimePercentage.getD 0
    let critical_percentage := s.criticalInfrastructurePercentage.getD 0
    match s.percentageOfTotal with
    | none => real_power * night_hours
    | some percentage_of_total =>
      let std := standard_power real_power percentage_of_total
      let crit := critical_power real_power percentage_of_total critical_percentage
      let dim := dimmable_power real_power percentage_of_total critical_percentage
      let dimming_hours := night_hours * dimming_time_percentage
      let normal_hours := night_hours - dimming_hours
      let dimmable_power_dimmed := dim * dimming_power_percentage
      std * night_hours + crit * night_hours +
        dim * normal_hours + dimmable_power_dimmed * dimming_hours

/-- Modelled from the spec: the per-day energy formula of §4.4 step 3,
`standardKw*24 + criticalKw*24 + dimmableKw*(n*(1−dimmingTimePercentage)) +
dimmableKw*dimmingPowerPercentage*(n*dimmingTimePercentage)`.  Stated for
comparison with `daily_usage`, which is translated from the code. -/
def spec_daily_energy (standardKw criticalKw dimmableKw
    dimmingPowerPercentage dimmingTimePercentage n : ℚ) : ℚ :=
  standardKw * 24 + criticalKw * 24 +
    dimmableKw * (n * (1 - dimmingTimePercentage)) +
    dimmableKw * dimmingPowerPercentage * (n * dimmingTimePercentage)

/-! ### Time parsing (`parse_time`, lines 186–195) -/

/-- Split a character list at every occurrence of the separator, keeping
empty pieces — the behavior of Python's `str.split(sep)` for a one-character
separator, on the character level. -/
def splitOnChar (c : Char) : List Char → List (List Char)
  | [] => [[]]
  | x :: xs =>
    let r := splitOnChar c xs
    if x = c then [] :: r
    else
      match r with
      | [] => [[x]]
      | y :: ys => (x :: y) :: ys

/-- Accumulator loop of `charsToNat?`. -/
def charsToNatAux : List Char → Nat → Option Nat
  | [], acc => some acc
  | c :: cs, acc => if c.isDigit then charsToNatAux cs (10 * acc + (c.toNat - 48)) else none

/-- Python `int(s)` on a clock-field string: all-digit and nonempty, else a
raised `ValueError` (`none`). -/
def charsToNat? (l : List Char) : Option Nat :=
  match l with
  | [] => none
  | _ => charsToNatAux l 0

/-- `parse_time` of `calculate_night_hours`: split a 12-hour clock string
such as `"7:12:40 AM"` on the blank into time and period, split the time on
`:` into exactly hours/minutes/seconds, normalize AM/PM as the code does
(`PM ∧ hours ≠ 12 → +12`, then `AM ∧ hours = 12 → 0`), and return decimal
hours.  Python raises (a caught exception) on malformed input; here `none`. -/
def parse_time (time_str : String) : Option ℚ :=
  match splitOnChar ' ' time_str.toList with
  | [time, period] =>
    match (splitOnChar ':' time).map charsToNat? with
    | [some h0, some minutes, some seconds] =>
      let h1 := if period = "PM".toList ∧ h0 ≠ 12 then h0 + 12 else h0
      let h2 := if period = "AM".toList ∧ h1 = 12 then 0 else h1
      some ((h2 : ℚ) + (minutes : ℚ) / 60 + (seconds : ℚ) / 3600)
    | _ => none
  | _ => none

/-- `calculate_night_hours` (lines 183–201): parse both times and return
`sunrise + (24 - sunset)`; a parse failure propagates (`none`). -/
def calculate_night_hours (sunrise_time sunset_time : String) : Option ℚ :=
  match parse_time sunrise_time, parse_time sunset_time with
  | some sunrise, some sunset => some (sunrise + (24 - sunset))
  | _, _ => none

/-! ### Calendar dates (Python `datetime` at day granularity)

`get_days_in_range` walks `datetime` values with `timedelta(days=1)`; the
claims are about calendar days, so the embedding carries year/month/day.
`datetime` comparison is chronological, i.e. lexicographic on (y, m, d). -/

structure Date where
  y : Nat
  m : Nat
  d : Nat
deriving DecidableEq, Repr

/-- Gregorian leap-year rule, as implemented by Python `datetime`. -/
def isLeap (y : Nat) : Bool :=
  (y % 4 = 0 && y % 100 ≠ 0) || y % 400 = 0

/-- Days of a Gregorian calendar month. -/
def daysInMonth (y m : Nat) : Nat :=
  if m = 2 then (if isLeap y then 29 else 28)
  else if m = 4 ∨ m = 6 ∨ m = 9 ∨ m = 11 then 30
  else 31

/-- A year/month/day triple that Python's `datetime` constructor accepts. -/
def Date.Valid (dt : Date) : Prop :=
  1 ≤ dt.m ∧ dt.m ≤ 12 ∧ 1 ≤ dt.d ∧ dt.d ≤ daysInMonth dt.y dt.m

instance (dt : Date) : Decidable dt.Valid := by
  unfold Date.Valid; infer_instance

/-- `datetime` comparison: chronological order, lexicographic on (y, m, d). -/
def dateLe (a b : Date) : Bool :=
  a.y < b.y || (a.y = b.y && (a.m < b.m || (a.m = b.m && a.d ≤ b.d)))

/-- `current_date + timedelta(days=1)` on the calendar-day level. -/
def nextDay (dt : Date) : Date :=
  if dt.d < daysInMonth dt.y dt.m then ⟨dt.y, dt.m, dt.d + 1⟩
  else if dt.m < 12 then ⟨dt.y, dt.m + 1, 1⟩
  else ⟨dt.y + 1, 1, 1⟩

/-- Strictly monotone rank of a (valid) date; used only to bound the number
of iterations of the `while current_date <= end_date` loop. -/
def dateRank (dt : Date) : Nat :=
  dt.y * 372 + dt.m * 31 + dt.d

/-- The loop body of `get_days_in_range` (lines 203–212): append the current
date while `current_date <= end_date`, then step one day.  The `fuel`
argument only bounds the iteration count; `daysInRangeLoop_le_fuel`-style
lemmas below show the fuel chosen in `get_days_in_range` never runs out for
valid dates, so the function equals the unbounded Python loop there. -/
def daysInRangeLoop (fuel : Nat) (current_date end_date : Date) : List Date :=
  match fuel with
  | 0 => []
  | fuel + 1 =>
    if dateLe current_date end_date then
      current_date :: daysInRangeLoop fuel (nextDay current_date) end_date
    else []

/-- `get_days_in_range` (lines 203–212): all days from `start_date` to
`end_date` inclusive, one day at a time. -/
def get_days_in_range (start_date end_date : Date) : List Date :=
  daysInRangeLoop (dateRank end_date + 1 - dateRank start_date) start_date end_date

/-! ### Grouping days by month (`calculate_energy_usage` lines 77–83)

The code keys a dict by `datetime(day.year, day.month, 1)`; the embedding
keys by the (year, month) pair.  Python dicts preserve insertion order, so
the dict is an association list that appends unseen keys at the end. -/

/-- The month key `datetime(day.year, day.month, 1)` of a day. -/
def monthKey (dt : Date) : Nat × Nat :=
  (dt.y, dt.m)

/-- One step of `months[month_key].append(day)` on an insertion-ordered
dict: extend the bucket of an existing key, else append a new bucket. -/
def addToMonth : List ((Nat × Nat) × List Date) → Nat × Nat → Date →
    List ((Nat × Nat) × List Date)
  | [], k, dt => [(k, [dt])]
  | (k', ds) :: rest, k, dt =>
    if k' = k then (k', ds ++ [dt]) :: rest
    else (k', ds) :: addToMonth rest k dt

/-- The `months` dict of `calculate_energy_usage` lines 78–83, in insertion
order. -/
def groupByMonth (days : List Date) : List ((Nat × Nat) × List Date) :=
  days.foldl (fun acc dt => addToMonth acc (monthKey dt) dt) []

/-! ### External sunrise/sunset fetch (`get_sunrise_sunset_data_range`) -/

/-- One item of the external API's `results` list: the fields the code
reads (`date`, `sunrise`, `sunset`). -/
structure DayData where
  date : String
  sunrise : String
  sunset : String
deriving DecidableEq, Repr

/-- A response of `api.sunrisesunset.io`: a `status` string and a `results`
list. -/
structure SunApiResponse where
  status : String
  results : List DayData
deriving DecidableEq, Repr

/-- Outcome of the `requests.get(url)` + `response.json()` pair: either a
decoded response, or a raised network/decoding exception with its message. -/
inductive ExtAnswer where
  | ok (response : SunApiResponse)
  | fail (msg : String)

/-- Lines 177–179: `organized_data = {}` then `organized_data[date] = item`
for each result item — a date-keyed dict where a later item overwrites an
earlier one with the same date. -/
def organize_data (results : List DayData) : String → Option DayData :=
  results.foldl (fun acc item => fun key => if key = item.date then some item else acc key)
    (fun _ => none)

/-- `get_sunrise_sunset_data_range` (lines 161–181): propagate a raised
network exception, raise `'Failed to get sunrise/sunset data'` when
`status != 'OK'`, else return the date-keyed lookup. -/
def get_sunrise_sunset_data_range (ext : ExtAnswer) :
    Except String (String → Option DayData) :=
  match ext with
  | .fail msg => .error msg
  | .ok response =>
    if response.status ≠ "OK" then .error "Failed to get sunrise/sunset data"
    else .ok (organize_data response.results)

/-! ### Monthly aggregation (`calculate_energy_usage`, lines 70–159) -/

/-- Zero-padded two-digit field of `strftime`. -/
def pad2 (n : Nat) : String :=
  if n < 10 then "0" ++ toString n else toString n

/-- Zero-padded four-digit year field of `strftime`. -/
def pad4 (n : Nat) : String :=
  if n < 10 then "000" ++ toString n
  else if n < 100 then "00" ++ toString n
  else if n < 1000 then "0" ++ toString n
  else toString n

/-- `day.strftime('%Y-%m-%d')`. -/
def dateKey (dt : Date) : String :=
  pad4 dt.y ++ "-" ++ pad2 dt.m ++ "-" ++ pad2 dt.d

/-- `month_start.strftime('%Y-%m-%dT00:00:00.000Z')` for the first of the
month. -/
def monthIso (k : Nat × Nat) : String :=
  pad4 k.1 ++ "-" ++ pad2 k.2 ++ "-01T00:00:00.000Z"

/-- The body of the per-day `try` block (lines 94–143): look the day up in
the fetched data (a falsy entry raises), compute night hours (a parse
failure raises), and price the day.  `none` is a raised-and-logged
exception: the day contributes nothing to the monthly sum. -/
def process_day (real_power : ℚ) (data : String → Option DayData)
    (intelligent_settings : Option ISettings) (day : Date) : Option ℚ :=
  match data (dateKey day) with
  | none => none
  | some day_data =>
    match calculate_night_hours day_data.sunrise day_data.sunset with
    | none => none
    | some night_hours => some (daily_usage real_power night_hours intelligent_settings)

/-- `monthly_usage` accumulation (lines 90–146): days whose processing
raised are skipped, the others are summed. -/
def monthly_usage (real_power : ℚ) (data : String → Option DayData)
    (intelligent_settings : Option ISettings) (month_days : List Date) : ℚ :=
  (month_days.map (fun day => (process_day real_power data intelligent_settings day).getD 0)).sum

/-- Python 3 `round` ties to even; away from a tie it is rounding to the
nearest integer. -/
def round_half_to_even (q : ℚ) : ℤ :=
  if q - ⌊q⌋ = 1 / 2 then (if ⌊q⌋ % 2 = 0 then ⌊q⌋ else ⌊q⌋ + 1)
  else round q

/-- `round(monthly_usage, 2)` (line 150). -/
def round2 (q : ℚ) : ℚ :=
  (round_half_to_even (q * 100) : ℚ) / 100

/-- `calculate_energy_usage` (lines 70–159), with the external fetch's
outcome passed in: fetch (propagating a raised exception), list the days,
group them by month, and emit one rounded entry per month plus the total of
the rounded entries. -/
def calculate_energy_usage (real_power : ℚ) (start_date end_date : Date)
    (ext : ExtAnswer) (intelligent_settings : Option ISettings) :
    Except String (List (String × ℚ) × ℚ) :=
  match get_sunrise_sunset_data_range ext with
  | .error msg => .error msg
  | .ok sunrise_sunset_data =>
    let days := get_days_in_range start_date end_date
    let months := groupByMonth days
    let results := months.map (fun bucket =>
      (monthIso bucket.1,
       round2 (monthly_usage real_power sunrise_sunset_data intelligent_settings bucket.2)))
    .ok (results, (results.map Prod.snd).sum)

/-! ### The request handler (`post`, lines 30–68) -/

/-- The request body after the numeric conversions of lines 33–37: each
field is `none` when absent (Python `dict.get` returning `None`).  A `none`
in `realPower`, `lat` or `long` makes `float(None)` raise; missing date
strings only fail the falsiness check of line 41. -/
structure ReqData where
  realPower : Option ℚ
  startDate : Option Date
  endDate : Option Date
  lat : Option ℚ
  long : Option ℚ
  intelligentSettings : Option ISettings

/-- The three response shapes of `post`: a 200 payload, a 400 client error,
or a 500 server error. -/
inductive PostResponse where
  | ok (results : List (String × ℚ)) (totalUsage : ℚ)
  | badRequest (msg : String)
  | serverError (msg : String)
deriving DecidableEq, Repr

/-- Whether a response is the 200 payload. -/
def isOkResponse : PostResponse → Bool
  | .ok _ _ => true
  | _ => false

/-- `post` (lines 30–68): `float(...)` of a missing numeric field raises a
`TypeError` caught by the catch-all (500); then
`all([real_power, start_date_str, end_date_str, lat, long])` rejects any
falsy value — the float `0.0` or a missing date string — with the 400
`'Missing required parameters'`; then the calculation runs, a raised
exception becoming a 500 with the exception's message. -/
def post (req : ReqData) (ext : ExtAnswer) : PostResponse :=
  match req.realPower, req.lat, req.long with
  | some real_power, some lat, some long =>
    match req.startDate, req.endDate with
    | some start_date, some end_date =>
      if real_power = 0 ∨ lat = 0 ∨ long = 0 then .badRequest "Missing required parameters"
      else
        match calculate_energy_usage real_power start_date end_date ext
            req.intelligentSettings with
        | .ok (results, total_usage) => .ok results total_usage
        | .error msg => .serverError msg
    | _, _ => .badRequest "Missing required parameters"
  | _, _, _ => .serverError "float() argument must be a string or a real number, not NoneType"

/-- Chronological order on month keys (`datetime(y, m, 1)` comparison). -/
def keyLe (a b : Nat × Nat) : Prop :=
  a.1 < b.1 ∨ (a.1 = b.1 ∧ a.2 ≤ b.2)

/-- Strict chronological order on month keys. -/
def keyLt (a b : Nat × Nat) : Prop :=
  a.1 < b.1 ∨ (a.1 = b.1 ∧ a.2 < b.2)

instance (a b : Nat × Nat) : Decidable (keyLe a b) := by
  unfold keyLe; infer_instance

instance (a b : Nat × Nat) : Decidable (keyLt a b) := by
  unfold keyLt; infer_instance

/-! ## Supporting lemmas -/

theorem daysInMonth_pos (y m : Nat) : 1 ≤ daysInMonth y m := by
  unfold daysInMonth
  split
  · split <;> omega
  · split <;> omega

theorem daysInMonth_le (y m : Nat) : daysInMonth y m ≤ 31 := by
  unfold daysInMonth
  split
  · split <;> omega
  · split <;> omega

theorem daysInMonth_december (y : Nat) : daysInMonth y 12 = 31 := by
  simp [daysInMonth]

theorem valid_nextDay {dt : Date} (h : dt.Valid) : (nextDay dt).Valid := by
  obtain ⟨y, m, d⟩ := dt
  obtain ⟨h1, h2, h3, h4⟩ := h
  have hp1 := daysInMonth_pos y (m + 1)
  have hp2 := daysInMonth_pos (y + 1) 1
  simp only [nextDay, Date.Valid] at *
  split
  · simp only; omega
  · split <;> · simp only; omega

theorem dateRank_lt_nextDay {dt : Date} (h : dt.Valid) :
    dateRank dt < dateRank (nextDay dt) := by
  obtain ⟨y, m, d⟩ := dt
  obtain ⟨h1, h2, h3, h4⟩ := h
  have h31 := daysInMonth_le y m
  have h12 := daysInMonth_december y
  simp only [nextDay, dateRank] at *
  split
  · simp only; omega
  · split <;> · simp only; omega

theorem dateLe_iff {a b : Date} :
    dateLe a b = true ↔
      (a.y < b.y ∨ (a.y = b.y ∧ (a.m < b.m ∨ (a.m = b.m ∧ a.d ≤ b.d)))) := by
  unfold dateLe
  simp [Bool.or_eq_true, Bool.and_eq_true, decide_eq_true_iff]

theorem dateLe_refl (a : Date) : dateLe a a = true := by
  rw [dateLe_iff]; omega

theorem dateLe_trans {a b c : Date} (hab : dateLe a b = true) (hbc : dateLe b c = true) :
    dateLe a c = true := by
  rw [dateLe_iff] at *
  omega

theorem dateRank_le_of_dateLe {a b : Date} (ha : a.Valid) (hb : b.Valid)
    (h : dateLe a b = true) : dateRank a ≤ dateRank b := by
  rw [dateLe_iff] at h
  obtain ⟨ay, am, ad⟩ := a
  obtain ⟨by', bm, bd⟩ := b
  obtain ⟨ha1, ha2, ha3, ha4⟩ := ha
  obtain ⟨hb1, hb2, hb3, hb4⟩ := hb
  have hA := daysInMonth_le ay am
  have hB := daysInMonth_le by' bm
  simp only [dateRank] at *
  omega

theorem dateRank_lt_of_dateLe_ne {a b : Date} (ha : a.Valid) (hb : b.Valid)
    (h : dateLe a b = true) (hne : a ≠ b) : dateRank a < dateRank b := by
  rw [dateLe_iff] at h
  obtain ⟨ay, am, ad⟩ := a
  obtain ⟨by', bm, bd⟩ := b
  obtain ⟨ha1, ha2, ha3, ha4⟩ := ha
  obtain ⟨hb1, hb2, hb3, hb4⟩ := hb
  have hA := daysInMonth_le ay am
  have hB := daysInMonth_le by' bm
  have hne' : ¬(ay = by' ∧ am = bm ∧ ad = bd) := by
    intro hcontra
    exact hne (by simp [Date.mk.injEq]; omega)
  simp only [dateRank] at *
  omega

theorem dateLe_nextDay {dt : Date} (h : dt.Valid) : dateLe dt (nextDay dt) = true := by
  obtain ⟨y, m, d⟩ := dt
  obtain ⟨h1, h2, h3, h4⟩ := h
  unfold nextDay
  split
  · rw [dateLe_iff]; simp
  · split <;> · rw [dateLe_iff]; simp

theorem keyLe_refl (a : Nat × Nat) : keyLe a a := by
  unfold keyLe; omega

theorem keyLe_trans {a b c : Nat × Nat} (hab : keyLe a b) (hbc : keyLe b c) : keyLe a c := by
  unfold keyLe at *; omega

theorem keyLt_of_keyLe_ne {a b : Nat × Nat} (hab : keyLe a b) (hne : a ≠ b) : keyLt a b := by
  obtain ⟨a1, a2⟩ := a
  obtain ⟨b1, b2⟩ := b
  have : ¬(a1 = b1 ∧ a2 = b2) := by
    intro hcontra
    exact hne (by simp [Prod.mk.injEq]; omega)
  unfold keyLe at hab
  unfold keyLt
  simp only at *
  omega

theorem not_keyLe_of_keyLt {a b : Nat × Nat} (h : keyLt a b) : ¬keyLe b a := by
  unfold keyLt at h
  unfold keyLe
  omega

theorem keyLe_monthKey_nextDay {dt : Date} (h : dt.Valid) :
    keyLe (monthKey dt) (monthKey (nextDay dt)) := by
  obtain ⟨y, m, d⟩ := dt
  unfold nextDay
  split
  · exact keyLe_refl _
  · split <;> · unfold monthKey keyLe; simp

theorem loop_nil_of_not_le {cur e : Date} (h : dateLe cur e = false) (fuel : Nat) :
    daysInRangeLoop fuel cur e = [] := by
  cases fuel <;> simp [daysInRangeLoop, h]

theorem loop_mem_valid {e : Date} :
    ∀ (fuel : Nat) (cur : Date), cur.Valid →
      ∀ d ∈ daysInRangeLoop fuel cur e, d.Valid := by
  intro fuel
  induction fuel with
  | zero => intro cur _ d hd; simp [daysInRangeLoop] at hd
  | succ n ih =>
    intro cur hcur d hd
    simp only [daysInRangeLoop] at hd
    split at hd
    · rcases List.mem_cons.mp hd with h | h
      · subst h; exact hcur
      · exact ih (nextDay cur) (valid_nextDay hcur) d h
    · simp at hd

theorem loop_lb {e : Date} :
    ∀ (fuel : Nat) (cur : Date), cur.Valid →
      ∀ d ∈ daysInRangeLoop fuel cur e, dateLe cur d = true := by
  intro fuel
  induction fuel with
  | zero => intro cur _ d hd; simp [daysInRangeLoop] at hd
  | succ n ih =>
    intro cur hcur d hd
    simp only [daysInRangeLoop] at hd
    split at hd
    · rcases List.mem_cons.mp hd with h | h
      · subst h; exact dateLe_refl d
      · exact dateLe_trans (dateLe_nextDay hcur) (ih (nextDay cur) (valid_nextDay hcur) d h)
    · simp at hd

theorem loop_ub {e : Date} :
    ∀ (fuel : Nat) (cur d : Date), d ∈ daysInRangeLoop fuel cur e → dateLe d e = true := by
  intro fuel
  induction fuel with
  | zero => intro cur d hd; simp [daysInRangeLoop] at hd
  | succ n ih =>
    intro cur d hd
    simp only [daysInRangeLoop] at hd
    split at hd
    · rcases List.mem_cons.mp hd with h | h
      · subst h; assumption
      · exact ih (nextDay cur) d h
    · simp at hd

theorem loop_rank_pairwise {e : Date} :
    ∀ (fuel : Nat) (cur : Date), cur.Valid →
      (daysInRangeLoop fuel cur e).Pairwise (fun a b => dateRank a < dateRank b) := by
  intro fuel
  induction fuel with
  | zero => intro cur _; simp [daysInRangeLoop]
  | succ n ih =>
    intro cur hcur
    simp only [daysInRangeLoop]
    split
    · refine List.Pairwise.cons ?_ (ih (nextDay cur) (valid_nextDay hcur))
      intro b hb
      have hbv := loop_mem_valid n (nextDay cur) (valid_nextDay hcur) b hb
      have h1 := dateRank_lt_nextDay hcur
      have h2 := dateRank_le_of_dateLe (valid_nextDay hcur) hbv
        (loop_lb n (nextDay cur) (valid_nextDay hcur) b hb)
      omega
    · exact List.Pairwise.nil

theorem loop_key_lb {e : Date} :
    ∀ (fuel : Nat) (cur : Date), cur.Valid →
      ∀ d ∈ daysInRangeLoop fuel cur e, keyLe (monthKey cur) (monthKey d) := by
  intro fuel
  induction fuel with
  | zero => intro cur _ d hd; simp [daysInRangeLoop] at hd
  | succ n ih =>
    intro cur hcur d hd
    simp only [daysInRangeLoop] at hd
    split at hd
    · rcases List.mem_cons.mp hd with h | h
      · subst h; exact keyLe_refl _
      · exact keyLe_trans (keyLe_monthKey_nextDay hcur)
          (ih (nextDay cur) (valid_nextDay hcur) d h)
    · simp at hd

theorem loop_keys_pairwise {e : Date} :
    ∀ (fuel : Nat) (cur : Date), cur.Valid →
      (daysInRangeLoop fuel cur e).Pairwise
        (fun a b => keyLe (monthKey a) (monthKey b)) := by
  intro fuel
  induction fuel with
  | zero => intro cur _; simp [daysInRangeLoop]
  | succ n ih =>
    intro cur hcur
    simp only [daysInRangeLoop]
    split
    · refine List.Pairwise.cons ?_ (ih (nextDay cur) (valid_nextDay hcur))
      intro b hb
      exact keyLe_trans (keyLe_monthKey_nextDay hcur)
        (loop_key_lb n (nextDay cur) (valid_nextDay hcur) b hb)
    · exact List.Pairwise.nil

theorem loop_fuel_agree {e : Date} (he : e.Valid) :
    ∀ (f1 f2 : Nat) (cur : Date), cur.Valid →
      dateRank e + 1 - dateRank cur ≤ f1 → dateRank e + 1 - dateRank cur ≤ f2 →
      daysInRangeLoop f1 cur e = daysInRangeLoop f2 cur e := by
  intro f1
  induction f1 with
  | zero =>
    intro f2 cur hcur h1 h2
    have hfalse : dateLe cur e = false := by
      by_contra hc
      have hc' : dateLe cur e = true := by
        cases hcc : dateLe cur e
        · exact absurd hcc hc
        · rfl
      have := dateRank_le_of_dateLe hcur he hc'
      omega
    rw [loop_nil_of_not_le hfalse, loop_nil_of_not_le hfalse]
  | succ n ih =>
    intro f2 cur hcur h1 h2
    by_cases hle : dateLe cur e = true
    · have hrank := dateRank_le_of_dateLe hcur he hle
      obtain ⟨k, rfl⟩ : ∃ k, f2 = k + 1 := by
        cases f2 with
        | zero => omega
        | succ k => exact ⟨k, rfl⟩
      simp only [daysInRangeLoop, hle, if_true]
      congr 1
      have hnext := dateRank_lt_nextDay hcur
      exact ih k (nextDay cur) (valid_nextDay hcur) (by omega) (by omega)
    · have hfalse : dateLe cur e = false := by
        cases hcc : dateLe cur e
        · rfl
        · exact absurd hcc hle
      rw [loop_nil_of_not_le hfalse, loop_nil_of_not_le hfalse]

/-- For valid dates the fuel of `get_days_in_range` never runs out: the
function satisfies exactly the recurrence of the Python `while` loop. -/
theorem gdr_unfold {s e : Date} (hs : s.Valid) (he : e.Valid) :
    get_days_in_range s e =
      if dateLe s e = true then s :: get_days_in_range (nextDay s) e else [] := by
  unfold get_days_in_range
  by_cases hle : dateLe s e = true
  · rw [if_pos hle]
    have hrank := dateRank_le_of_dateLe hs he hle
    obtain ⟨f, hf⟩ : ∃ f, dateRank e + 1 - dateRank s = f + 1 :=
      ⟨dateRank e - dateRank s, by omega⟩
    rw [hf]
    simp only [daysInRangeLoop, hle, if_true]
    congr 1
    have hnext := dateRank_lt_nextDay hs
    exact loop_fuel_agree he f _ (nextDay s) (valid_nextDay hs) (by omega) (by omega)
  · have hfalse : dateLe s e = false := by
      cases hcc : dateLe s e
      · rfl
      · exact absurd hcc hle
    rw [if_neg hle, loop_nil_of_not_le hfalse]

/-- `nextDay` is the least valid date strictly after a valid date. -/
theorem nextDay_min {s d : Date} (hs : s.Valid) (hd : d.Valid)
    (hle : dateLe s d = true) (hne : s ≠ d) : dateLe (nextDay s) d = true := by
  obtain ⟨sy, sm, sd⟩ := s
  obtain ⟨dy, dm, dd⟩ := d
  obtain ⟨hs1, hs2, hs3, hs4⟩ := hs
  obtain ⟨hd1, hd2, hd3, hd4⟩ := hd
  rw [dateLe_iff] at hle
  have hne' : ¬(sy = dy ∧ sm = dm ∧ sd = dd) := by
    intro hc
    obtain ⟨e1, e2, e3⟩ := hc
    subst e1; subst e2; subst e3
    exact hne rfl
  unfold nextDay
  simp only at *
  split
  · rw [dateLe_iff]
    simp only at *
    omega
  · split
    · rw [dateLe_iff]
      simp only at *
      by_cases hy : sy = dy
      · subst hy
        by_cases hm : sm = dm
        · subst hm; omega
        · omega
      · omega
    · rw [dateLe_iff]
      simp only at *
      have h12 : daysInMonth sy 12 = 31 := daysInMonth_december sy
      have hd31 := daysInMonth_le dy dm
      have hsm : sm = 12 := by omega
      subst hsm
      by_cases hy : sy = dy
      · subst hy
        have hdm : dm = 12 := by omega
        subst hdm
        omega
      · omega

/-- Every valid date between two valid endpoints is produced by
`get_days_in_range`. -/
theorem mem_gdr_of_between {e : Date} (he : e.Valid) :
    ∀ (n : Nat) (s d : Date), s.Valid → d.Valid → dateRank d - dateRank s ≤ n →
      dateLe s d = true → dateLe d e = true → d ∈ get_days_in_range s e := by
  intro n
  induction n with
  | zero =>
    intro s d hs hd hn hsd hde
    have hse : dateLe s e = true := dateLe_trans hsd hde
    rw [gdr_unfold hs he, if_pos hse]
    by_cases heq : s = d
    · subst heq; exact List.mem_cons_self s _
    · exact absurd hn (by have := dateRank_lt_of_dateLe_ne hs hd hsd heq; omega)
  | succ n ih =>
    intro s d hs hd hn hsd hde
    have hse : dateLe s e = true := dateLe_trans hsd hde
    rw [gdr_unfold hs he, if_pos hse]
    by_cases heq : s = d
    · subst heq; exact List.mem_cons_self s _
    · refine List.mem_cons_of_mem s ?_
      have hnext := dateRank_lt_nextDay hs
      exact ih (nextDay s) d (valid_nextDay hs) hd (by omega)
        (nextDay_min hs hd hsd heq) hde

theorem addToMonth_spec (k : Nat × Nat) (dt : Date) :
    ∀ acc : List ((Nat × Nat) × List Date),
      acc.Pairwise (fun p q => keyLt p.1 q.1) →
      (∀ p ∈ acc, keyLe p.1 k) →
      ((addToMonth acc k dt).map Prod.snd).flatten = (acc.map Prod.snd).flatten ++ [dt] ∧
      (addToMonth acc k dt).Pairwise (fun p q => keyLt p.1 q.1) ∧
      (∀ p ∈ addToMonth acc k dt, keyLe p.1 k) ∧
      (∀ p ∈ addToMonth acc k dt, p.1 = k ∨ p.1 ∈ acc.map Prod.fst) := by
  intro acc
  induction acc with
  | nil =>
    intro _ _
    refine ⟨by simp [addToMonth], by simp [addToMonth], ?_, ?_⟩
    · intro p hp
      simp [addToMonth] at hp
      subst hp
      exact keyLe_refl k
    · intro p hp
      simp [addToMonth] at hp
      subst hp
      exact Or.inl rfl
  | cons head rest ih =>
    intro hsorted hub
    obtain ⟨k', ds⟩ := head
    by_cases hk : k' = k
    · subst hk
      have hrest : rest = [] := by
        cases rest with
        | nil => rfl
        | cons q t =>
          exfalso
          have h1 : keyLt k' q.1 := (List.pairwise_cons.mp hsorted).1 q (List.mem_cons_self q t)
          have h2 : keyLe q.1 k' := hub q (List.mem_cons_of_mem _ (List.mem_cons_self q t))
          exact not_keyLe_of_keyLt h1 h2
      subst hrest
      refine ⟨?_, ?_, ?_, ?_⟩
      · simp [addToMonth]
      · simp [addToMonth]
      · intro p hp
        simp [addToMonth] at hp
        subst hp
        exact keyLe_refl k'
      · intro p hp
        simp [addToMonth] at hp
        subst hp
        simp
    · have hub' : ∀ p ∈ rest, keyLe p.1 k := fun p hp =>
        hub p (List.mem_cons_of_mem _ hp)
      obtain ⟨hj, hp, hb, hkeys⟩ := ih (List.pairwise_cons.mp hsorted).2 hub'
      have hstep : addToMonth ((k', ds) :: rest) k dt = (k', ds) :: addToMonth rest k dt := by
        simp [addToMonth, hk]
      refine ⟨?_, ?_, ?_, ?_⟩
      · rw [hstep]
        simp [hj]
      · rw [hstep]
        refine List.Pairwise.cons ?_ hp
        intro q hq
        rcases hkeys q hq with h | h
        · rw [h]
          exact keyLt_of_keyLe_ne (hub _ (List.mem_cons_self _ _)) hk
        · obtain ⟨r, hr, hr2⟩ := List.mem_map.mp h
          have := (List.pairwise_cons.mp hsorted).1 r hr
          rw [← hr2]
          exact this
      · intro p hp
        rw [hstep] at hp
        rcases List.mem_cons.mp hp with h | h
        · subst h; exact hub _ (List.mem_cons_self _ _)
        · exact hb p h
      · intro p hp
        rw [hstep] at hp
        rcases List.mem_cons.mp hp with h | h
        · subst h; simp
        · rcases hkeys p h with h2 | h2
          · exact Or.inl h2
          · exact Or.inr (by simp [h2])

theorem groupByMonth_aux :
    ∀ (l : List Date) (acc : List ((Nat × Nat) × List Date)),
      acc.Pairwise (fun p q => keyLt p.1 q.1) →
      (∀ p ∈ acc, ∀ dt ∈ l, keyLe p.1 (monthKey dt)) →
      l.Pairwise (fun a b => keyLe (monthKey a) (monthKey b)) →
      ((List.foldl (fun acc dt => addToMonth acc (monthKey dt) dt) acc l).map
          Prod.snd).flatten = (acc.map Prod.snd).flatten ++ l ∧
      (List.foldl (fun acc dt => addToMonth acc (monthKey dt) dt) acc l).Pairwise
        (fun p q => keyLt p.1 q.1) := by
  intro l
  induction l with
  | nil =>
    intro acc hsorted _ _
    exact ⟨by simp, hsorted⟩
  | cons d t ih =>
    intro acc hsorted hub hl
    have hub1 : ∀ p ∈ acc, keyLe p.1 (monthKey d) := fun p hp =>
      hub p hp d (List.mem_cons_self d t)
    obtain ⟨hj, hp, hb, hkeys⟩ := addToMonth_spec (monthKey d) d acc hsorted hub1
    have hdt : ∀ dt ∈ t, keyLe (monthKey d) (monthKey dt) := fun dt hdt =>
      (List.pairwise_cons.mp hl).1 dt hdt
    have hub' : ∀ p ∈ addToMonth acc (monthKey d) d, ∀ dt ∈ t, keyLe p.1 (monthKey dt) :=
      fun p hp dt hdtm => keyLe_trans (hb p hp) (hdt dt hdtm)
    obtain ⟨hj2, hp2⟩ := ih (addToMonth acc (monthKey d) d) hp hub' (List.pairwise_cons.mp hl).2
    constructor
    · simp only [List.foldl_cons, hj2, hj]
      simp
    · simpa using hp2

theorem groupByMonth_const_aux (k : Nat × Nat) :
    ∀ (l : List Date) (ds : List Date), (∀ dt ∈ l, monthKey dt = k) →
      List.foldl (fun acc dt => addToMonth acc (monthKey dt) dt) [(k, ds)] l =
        [(k, ds ++ l)] := by
  intro l
  induction l with
  | nil => intro ds _; simp
  | cons d t ih =>
    intro ds hk
    have hd : monthKey d = k := hk d (List.mem_cons_self d t)
    simp only [List.foldl_cons, hd, addToMonth, eq_self_iff_true, if_true]
    rw [ih (ds ++ [d]) (fun dt hdt => hk dt (List.mem_cons_of_mem d hdt))]
    simp

theorem monthly_usage_filter_ne (real_power : ℚ) (data : String → Option DayData)
    (is : Option ISettings) (x : Date) (hmiss : data (dateKey x) = none) :
    ∀ mdays : List Date,
      monthly_usage real_power data is mdays =
        monthly_usage real_power data is (mdays.filter (fun d => d ≠ x)) := by
  have hx0 : (process_day real_power data is x).getD 0 = 0 := by
    simp [process_day, hmiss]
  intro mdays
  induction mdays with
  | nil => rfl
  | cons a t ih =>
    simp only [monthly_usage, List.filter_cons] at *
    by_cases ha : a = x
    · subst ha
      simp [hx0, ih]
    · simp [ha, ih]

/-! ## Claims -/

/-- Claim C1, counterexample.  The claim says the per-day energy charges the
standard and critical tiers for all 24 hours.  At `realPower = 10`,
`percentageOfTotal = 0` (all power standard) and 12 night hours the code
bills `10 * 12 = 120` kWh while the claimed formula gives `10 * 24 = 240`;
the code charges those tiers only for the night hours. -/
theorem claim_C1_counterexample :
    daily_usage 10 12 (some ⟨some 0, none, none, none⟩) ≠
      spec_daily_energy (standard_power 10 0) (critical_power 10 0 0)
        (dimmable_power 10 0 0) 1 0 12 := by
  norm_num [daily_usage, spec_daily_energy, standard_power, critical_power, dimmable_power]

/-- Claim C1, amended.  For every day processed with intelligent settings
present (and `percentageOfTotal` given), the per-day energy charges every
tier over that day's night hours `n` only: daily energy =
`standardKw*n + criticalKw*n + dimmableKw*(n*(1−dimmingTimePercentage)) +
dimmableKw*dimmingPowerPercentage*(n*dimmingTimePercentage)`. -/
theorem claim_C1_amended (real_power night_hours pot dpp dtp cp : ℚ) :
    daily_usage real_power night_hours (some ⟨some pot, some dpp, some dtp, some cp⟩) =
      standard_power real_power pot * night_hours +
        critical_power real_power pot cp * night_hours +
        dimmable_power real_power pot cp * (night_hours * (1 - dtp)) +
        dimmable_power real_power pot cp * dpp * (night_hours * dtp) := by
  simp only [daily_usage, Option.getD_some]
  ring

/-- Claim C3, counterexample.  The claim says an absent
`dimmingPowerPercentage` behaves as `0` (the dimmed fraction consumes zero
dimmable power).  With `percentageOfTotal = 1`, `dimmingTimePercentage =
1/2`, `realPower = 10`, 12 night hours: leaving the field absent yields
`120` kWh (the code defaults it to `1` — full power while dimmed), while
setting it to `0` yields `60` kWh. -/
theorem claim_C3_counterexample :
    daily_usage 10 12 (some ⟨some 1, none, some (1 / 2), some 0⟩) ≠
      daily_usage 10 12 (some ⟨some 1, some 0, some (1 / 2), some 0⟩) := by
  norm_num [daily_usage, standard_power, critical_power, dimmable_power]

/-- Claim C3, amended.  Absent `dimmingTimePercentage` and
`criticalInfrastructurePercentage` behave as `0`, but an absent
`dimmingPowerPercentage` behaves as `1` (the dimmed fraction runs at full
power); an absent `percentageOfTotal` — or absent settings altogether —
bypasses the intelligent formula, yielding 100% standard infrastructure at
full power over the night hours (`realPower * nightHours`). -/
theorem claim_C3_amended (real_power night_hours pot dpp dtp cp : ℚ) (a b c : Option ℚ) :
    (daily_usage real_power night_hours (some ⟨some pot, none, some dtp, some cp⟩) =
        daily_usage real_power night_hours (some ⟨some pot, some 1, some dtp, some cp⟩)) ∧
    (daily_usage real_power night_hours (some ⟨some pot, some dpp, none, some cp⟩) =
        daily_usage real_power night_hours (some ⟨some pot, some dpp, some 0, some cp⟩)) ∧
    (daily_usage real_power night_hours (some ⟨some pot, some dpp, some dtp, none⟩) =
        daily_usage real_power night_hours (some ⟨some pot, some dpp, some dtp, some 0⟩)) ∧
    (daily_usage real_power night_hours (some ⟨none, a, b, c⟩) = real_power * night_hours) ∧
    (daily_usage real_power night_hours none = real_power * night_hours) :=
  ⟨rfl, rfl, rfl, rfl, rfl⟩

/-- Claim C5.  For every `realPowerKw` and valid settings fractions in
`[0, 1]`, the power tiers satisfy
`standardKw + criticalKw + dimmableKw = realPowerKw`, and for
`percentageOfTotal = 0` the split is all-standard. -/
theorem claim_C5 (real_power pot dpp dtp cp : ℚ)
    (hpot : 0 ≤ pot ∧ pot ≤ 1) (hdpp : 0 ≤ dpp ∧ dpp ≤ 1)
    (hdtp : 0 ≤ dtp ∧ dtp ≤ 1) (hcp : 0 ≤ cp ∧ cp ≤ 1) :
    standard_power real_power pot + critical_power real_power pot cp +
        dimmable_power real_power pot cp = real_power ∧
    (pot = 0 → standard_power real_power pot = real_power ∧
        critical_power real_power pot cp = 0 ∧ dimmable_power real_power pot cp = 0) := by
  refine ⟨by simp only [standard_power, critical_power, dimmable_power]; ring, ?_⟩
  rintro rfl
  refine ⟨?_, ?_, ?_⟩ <;> · simp only [standard_power, critical_power, dimmable_power]; ring

/-- Claim C5, witness at `realPower = 7` and all fractions `0`. -/
theorem claim_C5_witness :
    ((0 : ℚ) ≤ 0 ∧ (0 : ℚ) ≤ 1) ∧
    (standard_power 7 0 + critical_power 7 0 0 + dimmable_power 7 0 0 = 7 ∧
      ((0 : ℚ) = 0 → standard_power 7 0 = 7 ∧ critical_power 7 0 0 = 0 ∧
        dimmable_power 7 0 0 = 0)) :=
  ⟨by norm_num,
   claim_C5 7 0 0 0 0 (by norm_num) (by norm_num) (by norm_num) (by norm_num)⟩

/-- Claim C8.  For every sunrise and sunset clock string that parses, the
computed night hours are `sunrise-decimal + (24 − sunset-decimal)`: the
hours from midnight to sunrise plus the hours from sunset to midnight. -/
theorem claim_C8 (sunrise_time sunset_time : String) (sunrise sunset : ℚ)
    (hrise : parse_time sunrise_time = some sunrise)
    (hset : parse_time sunset_time = some sunset) :
    calculate_night_hours sunrise_time sunset_time = some (sunrise + (24 - sunset)) := by
  unfold calculate_night_hours
  rw [hrise, hset]

/-- Claim C8, witness on the spec's example times. -/
theorem claim_C8_witness :
    parse_time "7:12:40 AM" = some (649 / 90) ∧
    parse_time "6:45:00 PM" = some (75 / 4) ∧
    calculate_night_hours "7:12:40 AM" "6:45:00 PM" = some (649 / 90 + (24 - 75 / 4)) := by
  have hrise : parse_time "7:12:40 AM" = some (649 / 90) := by
    simp +decide [parse_time, splitOnChar, charsToNat?, charsToNatAux]
    norm_num
  have hset : parse_time "6:45:00 PM" = some (75 / 4) := by
    simp +decide [parse_time, splitOnChar, charsToNat?, charsToNatAux]
    norm_num
  exact ⟨hrise, hset, claim_C8 _ _ _ _ hrise hset⟩

/-- Claim C9.  The 12-hour clock parser normalizes AM/PM as specified:
`"7:12:40 AM"` parses to 7.2111 decimal hours within 0.0001, `"6:45:00 PM"`
to 18.75, `"12:00:00 AM"` to 0.0, and `"12:00:00 PM"` to 12.0. -/
theorem claim_C9 :
    (∃ q, parse_time "7:12:40 AM" = some q ∧ |q - 72111 / 10000| ≤ 1 / 10000) ∧
    parse_time "6:45:00 PM" = some (75 / 4) ∧
    parse_time "12:00:00 AM" = some 0 ∧
    parse_time "12:00:00 PM" = some 12 := by
  refine ⟨⟨649 / 90, ?_, ?_⟩, ?_, ?_, ?_⟩
  · simp +decide [parse_time, splitOnChar, charsToNat?, charsToNatAux]
    norm_num
  · rw [abs_le]
    constructor <;> norm_num
  · simp +decide [parse_time, splitOnChar, charsToNat?, charsToNatAux]
    norm_num
  · simp +decide [parse_time, splitOnChar, charsToNat?, charsToNatAux]
  · simp +decide [parse_time, splitOnChar, charsToNat?, charsToNatAux]

/-- Claim C6.  For valid `startDate ≤ endDate`: `get_days_in_range` produces
exactly the valid days between the two endpoints, strictly chronologically
(no duplicates, no gaps); the month buckets appear in chronological order
and their concatenated day sequences reconstruct that day sequence exactly;
and a range inside one calendar month yields exactly one bucket holding
exactly the days in range. -/
theorem claim_C6 (s e : Date) (hs : s.Valid) (he : e.Valid) (hse : dateLe s e = true) :
    (∀ d : Date, d ∈ get_days_in_range s e ↔
      (d.Valid ∧ dateLe s d = true ∧ dateLe d e = true)) ∧
    (get_days_in_range s e).Pairwise (fun a b => dateRank a < dateRank b) ∧
    ((groupByMonth (get_days_in_range s e)).map Prod.snd).flatten =
      get_days_in_range s e ∧
    (groupByMonth (get_days_in_range s e)).Pairwise (fun p q => keyLt p.1 q.1) ∧
    (s.y = e.y → s.m = e.m →
      groupByMonth (get_days_in_range s e) = [((s.y, s.m), get_days_in_range s e)]) := by
  have hmem : ∀ d : Date, d ∈ get_days_in_range s e ↔
      (d.Valid ∧ dateLe s d = true ∧ dateLe d e = true) := by
    intro d
    constructor
    · intro hd
      have hdl : d ∈ daysInRangeLoop (dateRank e + 1 - dateRank s) s e := hd
      exact ⟨loop_mem_valid _ s hs d hdl, loop_lb _ s hs d hdl, loop_ub _ s d hdl⟩
    · rintro ⟨hdv, hsd, hde⟩
      exact mem_gdr_of_between he (dateRank d - dateRank s) s d hs hdv (le_refl _) hsd hde
  have hkeys : (get_days_in_range s e).Pairwise
      (fun a b => keyLe (monthKey a) (monthKey b)) := loop_keys_pairwise _ s hs
  have hgroup := groupByMonth_aux (get_days_in_range s e) [] List.Pairwise.nil
    (by intro p hp; simp at hp) hkeys
  refine ⟨hmem, loop_rank_pairwise _ s hs, ?_, ?_, ?_⟩
  · simpa [groupByMonth] using hgroup.1
  · simpa [groupByMonth] using hgroup.2
  · intro hy hm
    have hconst : ∀ d ∈ get_days_in_range s e, monthKey d = (s.y, s.m) := by
      intro d hd
      obtain ⟨hdv, hsd, hde⟩ := (hmem d).mp hd
      rw [dateLe_iff] at hsd hde
      have hyy : d.y = s.y := by omega
      have hmm : d.m = s.m := by omega
      simp [monthKey, hyy, hmm]
    have hsmem : s ∈ get_days_in_range s e := (hmem s).mpr ⟨hs, dateLe_refl s, hse⟩
    cases hdays : get_days_in_range s e with
    | nil => rw [hdays] at hsmem; simp at hsmem
    | cons d0 t =>
      have hd0 : monthKey d0 = (s.y, s.m) :=
        hconst d0 (by rw [hdays]; exact List.mem_cons_self d0 t)
      have ht : ∀ dt ∈ t, monthKey dt = (s.y, s.m) := fun dt hdt =>
        hconst dt (by rw [hdays]; exact List.mem_cons_of_mem d0 hdt)
      unfold groupByMonth
      simp only [List.foldl_cons, addToMonth, hd0]
      rw [groupByMonth_const_aux (s.y, s.m) t [d0] ht]
      simp

/-- Claim C6, witness: the range 2024-01-30 to 2024-02-02 (a leap
February), spanning a month boundary. -/
theorem claim_C6_witness :
    (Date.Valid ⟨2024, 1, 30⟩ ∧ Date.Valid ⟨2024, 2, 2⟩ ∧
      dateLe ⟨2024, 1, 30⟩ ⟨2024, 2, 2⟩ = true) ∧
    ((∀ d : Date, d ∈ get_days_in_range ⟨2024, 1, 30⟩ ⟨2024, 2, 2⟩ ↔
      (d.Valid ∧ dateLe ⟨2024, 1, 30⟩ d = true ∧ dateLe d ⟨2024, 2, 2⟩ = true)) ∧
    (get_days_in_range ⟨2024, 1, 30⟩ ⟨2024, 2, 2⟩).Pairwise
      (fun a b => dateRank a < dateRank b) ∧
    ((groupByMonth (get_days_in_range ⟨2024, 1, 30⟩ ⟨2024, 2, 2⟩)).map Prod.snd).flatten =
      get_days_in_range ⟨2024, 1, 30⟩ ⟨2024, 2, 2⟩ ∧
    (groupByMonth (get_days_in_range ⟨2024, 1, 30⟩ ⟨2024, 2, 2⟩)).Pairwise
      (fun p q => keyLt p.1 q.1) ∧
    ((2024 : Nat) = 2024 → (1 : Nat) = 2 →
      groupByMonth (get_days_in_range ⟨2024, 1, 30⟩ ⟨2024, 2, 2⟩) =
        [((2024, 1), get_days_in_range ⟨2024, 1, 30⟩ ⟨2024, 2, 2⟩)])) :=
  ⟨⟨by decide, by decide, by decide⟩,
   claim_C6 ⟨2024, 1, 30⟩ ⟨2024, 2, 2⟩ (by decide) (by decide) (by decide)⟩

/-- Claim C7.  A day missing from the fetched data does not raise and does
not discard its month: the missing day contributes nothing to the monthly
sum (the sum equals the sum over the remaining days), the calculation still
returns normally, every month bucket still gets exactly one result entry,
and the missing day's month entry is still emitted with the sum of its
remaining days. -/
theorem claim_C7 (real_power : ℚ) (is : Option ISettings) (ext : ExtAnswer)
    (data : String → Option DayData) (s e x : Date) (mk : Nat × Nat)
    (mdays : List Date)
    (hext : get_sunrise_sunset_data_range ext = .ok data)
    (hbucket : (mk, mdays) ∈ groupByMonth (get_days_in_range s e))
    (hx : x ∈ mdays) (hmiss : data (dateKey x) = none) :
    monthly_usage real_power data is mdays =
      monthly_usage real_power data is (mdays.filter (fun d => d ≠ x)) ∧
    ∃ results total_usage,
      calculate_energy_usage real_power s e ext is = .ok (results, total_usage) ∧
      results.length = (groupByMonth (get_days_in_range s e)).length ∧
      (monthIso mk,
        round2 (monthly_usage real_power data is (mdays.filter (fun d => d ≠ x)))) ∈
          results := by
  have hfilter := monthly_usage_filter_ne real_power data is x hmiss mdays
  have hcalc : calculate_energy_usage real_power s e ext is =
      .ok ((groupByMonth (get_days_in_range s e)).map
            (fun bucket =>
              (monthIso bucket.1, round2 (monthly_usage real_power data is bucket.2))),
           (((groupByMonth (get_days_in_range s e)).map
            (fun bucket =>
              (monthIso bucket.1,
               round2 (monthly_usage real_power data is bucket.2)))).map Prod.snd).sum) := by
    unfold calculate_energy_usage
    rw [hext]
  refine ⟨hfilter, _, _, hcalc, by simp, ?_⟩
  rw [← hfilter]
  exact List.mem_map_of_mem _ hbucket

/-- Claim C7, witness: a two-day January 2024 range where the data source
answered only for the first day; the second day is skipped, the single
month entry prices just the first day. -/
theorem claim_C7_witness :
    (get_sunrise_sunset_data_range
        (.ok ⟨"OK", [⟨"2024-01-15", "7:00:00 AM", "5:00:00 PM"⟩]⟩) =
      .ok (organize_data [⟨"2024-01-15", "7:00:00 AM", "5:00:00 PM"⟩]) ∧
     ((2024, 1), [⟨2024, 1, 15⟩, ⟨2024, 1, 16⟩]) ∈
        groupByMonth (get_days_in_range ⟨2024, 1, 15⟩ ⟨2024, 1, 16⟩) ∧
     (⟨2024, 1, 16⟩ : Date) ∈ ([⟨2024, 1, 15⟩, ⟨2024, 1, 16⟩] : List Date) ∧
     organize_data [⟨"2024-01-15", "7:00:00 AM", "5:00:00 PM"⟩]
        (dateKey ⟨2024, 1, 16⟩) = none) ∧
    (monthly_usage 10 (organize_data [⟨"2024-01-15", "7:00:00 AM", "5:00:00 PM"⟩]) none
        [⟨2024, 1, 15⟩, ⟨2024, 1, 16⟩] =
      monthly_usage 10 (organize_data [⟨"2024-01-15", "7:00:00 AM", "5:00:00 PM"⟩]) none
        (([⟨2024, 1, 15⟩, ⟨2024, 1, 16⟩] : List Date).filter
          (fun d => d ≠ (⟨2024, 1, 16⟩ : Date))) ∧
    ∃ results total_usage,
      calculate_energy_usage 10 ⟨2024, 1, 15⟩ ⟨2024, 1, 16⟩
          (.ok ⟨"OK", [⟨"2024-01-15", "7:00:00 AM", "5:00:00 PM"⟩]⟩) none =
        .ok (results, total_usage) ∧
      results.length =
        (groupByMonth (get_days_in_range ⟨2024, 1, 15⟩ ⟨2024, 1, 16⟩)).length ∧
      (monthIso (2024, 1),
        round2 (monthly_usage 10
          (organize_data [⟨"2024-01-15", "7:00:00 AM", "5:00:00 PM"⟩]) none
          (([⟨2024, 1, 15⟩, ⟨2024, 1, 16⟩] : List Date).filter
            (fun d => d ≠ (⟨2024, 1, 16⟩ : Date))))) ∈ results) :=
  ⟨⟨by simp [get_sunrise_sunset_data_range], by decide, by decide, by decide⟩,
   claim_C7 10 none (.ok ⟨"OK", [⟨"2024-01-15", "7:00:00 AM", "5:00:00 PM"⟩]⟩)
     (organize_data [⟨"2024-01-15", "7:00:00 AM", "5:00:00 PM"⟩])
     ⟨2024, 1, 15⟩ ⟨2024, 1, 16⟩ ⟨2024, 1, 16⟩ (2024, 1)
     [⟨2024, 1, 15⟩, ⟨2024, 1, 16⟩]
     (by simp [get_sunrise_sunset_data_range]) (by decide) (by decide) (by decide)⟩

/-- Claim C10.  When `realPower`, `lat` or `long` parses to the float `0`
(latitude or longitude 0 being perfectly valid coordinates), the
`all([...])` presence check of line 41 treats it as missing: the handler
answers the 400 client error `'Missing required parameters'` and the
calculation never runs. -/
theorem claim_C10 (real_power lat long : ℚ) (sd ed : Option Date)
    (is : Option ISettings) (ext : ExtAnswer)
    (h : real_power = 0 ∨ lat = 0 ∨ long = 0) :
    post ⟨some real_power, sd, ed, some lat, some long, is⟩ ext =
      .badRequest "Missing required parameters" := by
  unfold post
  cases sd <;> cases ed <;> simp [h]

/-- Claim C10, witness: latitude 0 (the equator) with every other field
present and sound is rejected as missing. -/
theorem claim_C10_witness :
    ((10 : ℚ) = 0 ∨ (0 : ℚ) = 0 ∨ (20 : ℚ) = 0) ∧
    post ⟨some 10, some ⟨2024, 1, 1⟩, some ⟨2024, 1, 2⟩, some 0, some 20, none⟩
        (.ok ⟨"OK", []⟩) = .badRequest "Missing required parameters" :=
  ⟨Or.inr (Or.inl rfl),
   claim_C10 10 0 20 (some ⟨2024, 1, 1⟩) (some ⟨2024, 1, 2⟩) none (.ok ⟨"OK", []⟩)
     (Or.inr (Or.inl rfl))⟩

/-- Claim C2, counterexample.  A failing external call (a raised network
exception) is surfaced to the caller as a 500 server error, not recovered
by any fallback: the response is `serverError`, not a normal result. -/
theorem claim_C2_counterexample :
    post ⟨some 10, some ⟨2024, 1, 1⟩, some ⟨2024, 1, 2⟩, some 50, some 20, none⟩
        (.fail "connection error") = .serverError "connection error" ∧
    isOkResponse
        (post ⟨some 10, some ⟨2024, 1, 1⟩, some ⟨2024, 1, 2⟩, some 50, some 20, none⟩
          (.fail "connection error")) = false := by
  constructor <;>
    norm_num [post, calculate_energy_usage, get_sunrise_sunset_data_range, isOkResponse]

/-- Claim C2, amended.  There is no latitude/season fallback: when the
external call raises or returns a non-OK status,
`get_sunrise_sunset_data_range` raises, and `post` surfaces the failure to
the caller as a 500 server error carrying the exception's message. -/
theorem claim_C2_amended (real_power lat long : ℚ) (sd ed : Date)
    (is : Option ISettings)
    (hrp : real_power ≠ 0) (hlat : lat ≠ 0) (hlong : long ≠ 0) :
    (∀ msg, post ⟨some real_power, some sd, some ed, some lat, some long, is⟩
        (.fail msg) = .serverError msg) ∧
    (∀ response, response.status ≠ "OK" →
      post ⟨some real_power, some sd, some ed, some lat, some long, is⟩
          (.ok response) = .serverError "Failed to get sunrise/sunset data") := by
  constructor
  · intro msg
    simp [post, calculate_energy_usage, get_sunrise_sunset_data_range, hrp, hlat, hlong]
  · intro response hstat
    simp [post, calculate_energy_usage, get_sunrise_sunset_data_range, hrp, hlat, hlong, hstat]

/-- Claim C2 (amended), witness: a timeout and a non-OK status, both at a
fully populated request. -/
theorem claim_C2_witness :
    post ⟨some 10, some ⟨2024, 1, 1⟩, some ⟨2024, 1, 2⟩, some 50, some 20, none⟩
        (.fail "timeout") = .serverError "timeout" ∧
    post ⟨some 10, some ⟨2024, 1, 1⟩, some ⟨2024, 1, 2⟩, some 50, some 20, none⟩
        (.ok ⟨"ERROR", []⟩) = .serverError "Failed to get sunrise/sunset data" := by
  have h := claim_C2_amended 10 50 20 ⟨2024, 1, 1⟩ ⟨2024, 1, 2⟩ none
    (by norm_num) (by norm_num) (by norm_num)
  exact ⟨h.1 "timeout", h.2 ⟨"ERROR", []⟩ (by decide)⟩

/-- Claim C4, counterexample.  Latitude 100 lies outside `[-90, 90]`, yet
the request is not rejected: the calculation runs and a 200 payload comes
back.  Latitude 0 lies inside the range, yet the request is rejected as
`'Missing required parameters'`.  No range validation exists. -/
theorem claim_C4_counterexample :
    post ⟨some 10, some ⟨2024, 1, 15⟩, some ⟨2024, 1, 15⟩, some 100, some 20, none⟩
        (.ok ⟨"OK", []⟩) = .ok [("2024-01-01T00:00:00.000Z", 0)] 0 ∧
    post ⟨some 10, some ⟨2024, 1, 15⟩, some ⟨2024, 1, 15⟩, some 0, some 20, none⟩
        (.ok ⟨"OK", []⟩) = .badRequest "Missing required parameters" := by
  constructor
  · simp +decide [post, calculate_energy_usage, get_sunrise_sunset_data_range,
      organize_data, get_days_in_range, daysInRangeLoop, dateRank, dateLe, nextDay,
      daysInMonth, isLeap, groupByMonth, addToMonth, monthKey, monthIso, pad4, pad2,
      dateKey, monthly_usage, process_day, round2, round_half_to_even]
  · simp [post]

/-- Claim C4, amended.  `post` performs no range validation of the
coordinates: with the numeric fields and both dates present, it answers the
400 `'Missing required parameters'` exactly when `realPower`, `lat` or
`long` is 0, and any other coordinates — inside or outside `[-90, 90]` and
`[-180, 180]` — pass this check and reach the calculation. -/
theorem claim_C4_amended (real_power lat long : ℚ) (sd ed : Date)
    (is : Option ISettings) (ext : ExtAnswer) :
    post ⟨some real_power, some sd, some ed, some lat, some long, is⟩ ext =
        .badRequest "Missing required parameters" ↔
      (real_power = 0 ∨ lat = 0 ∨ long = 0) := by
  by_cases h : real_power = 0 ∨ lat = 0 ∨ long = 0
  · simp [post, h]
  · simp only [post, if_neg h]
    constructor
    · intro hcontra
      revert hcontra
      split <;> simp
    · intro hh
      exact absurd hh h

end Monograf
